import Mathlib

/-!
Verification of profiles/base/accounts/display-accts.py: a shallow embedding of
the account record parser, table formatter, consistency checker and driver,
together with theorems settling the specification claims.

Python strings are modelled as Lean String (a structure over List Char); the
string primitives the script relies on (str.split with a one-character
separator, str.splitlines restricted to newline separators, str.startswith,
str.upper, substring search, int()) are defined below character by character so
that they match the CPython semantics used by the script and evaluate inside
the kernel.
-/

set_option maxHeartbeats 1000000

namespace Accts

/-- Split of a character list on a separator character, mirroring Python
str.split(sep) for a one-character sep: the empty string yields [""], a
trailing separator yields a trailing empty piece, n separators yield n+1
pieces. -/
def splitOnChar (c : Char) : List Char → List (List Char)
  | [] => [[]]
  | x :: xs =>
    if x = c then [] :: splitOnChar c xs
    else
      match splitOnChar c xs with
      | [] => [[x]]
      | y :: ys => (x :: y) :: ys

/-- Python s.split(c) on Lean strings. -/
def pySplit (c : Char) (s : String) : List String :=
  (splitOnChar c s.data).map (fun l => ⟨l⟩)

/-- Lines of the raw text, modelling content.splitlines() restricted to the
newline separator; the one divergence (a trailing newline produces a trailing
empty piece here and not in Python) is invisible to the parser, which skips
empty lines. -/
def splitLines (s : String) : List String := pySplit '\n' s

/-- Python line.startswith('#'). -/
def startsWithHash (s : String) : Bool :=
  match s.data with
  | c :: _ => c = '#'
  | [] => false

/-- A line the parser skips: empty (Python "if not line") or a '#' comment. -/
def lineSkip (s : String) : Bool := s == "" || startsWithHash s

/-- The key/value split of a line: some (k, v) exactly when the line contains
exactly one ':', so that Python "key, val = line.split(':')" unpacks; any other
colon count makes the unpacking raise ValueError. -/
def lineKV (s : String) : Option (String × String) :=
  match splitOnChar ':' s.data with
  | [k, v] => some (⟨k⟩, ⟨v⟩)
  | _ => none

/-- The field mapping built up while parsing, modelling the Python dict d:
lookup finds the most recent write, the key set is every key ever written. -/
abbrev Dict := List (String × String)

/-- Dict lookup: first match wins; dset prepends, so the most recent write for
a key is the one found (Python dict assignment overwrites). -/
def dget : Dict → String → Option String
  | [], _ => none
  | (k, v) :: d, f => if k = f then some v else dget d f

/-- Dict write, overwriting any previous value for the key as far as dget and
key membership are concerned. -/
def dset (d : Dict) (k v : String) : Dict := (k, v) :: d

/-- The failure modes of _ParseAccount, one per ValueError raise site (the
malformed-line case is the ValueError CPython raises when tuple unpacking of
line.split(':') fails; its interpreter-supplied text is not modelled). -/
inductive ParseError where
  | malformedLine (line : String)
  | unknownKey (key : String)
  | missingKeys (keys : List String)
  | nameMismatch (name nameKey value : String)
deriving DecidableEq, Repr

/-- The line loop of _ParseAccount over the already-split lines: skip blank and
comment lines, split each remaining line on ':' into exactly key and value,
reject undeclared keys, store the value under the key. -/
def parseLines (fields : List String) : List String → Dict → Except ParseError Dict
  | [], d => .ok d
  | line :: rest, d =>
    if lineSkip line then parseLines fields rest d
    else
      match lineKV line with
      | some (key, val) =>
        if fields.contains key then parseLines fields rest (dset d key val)
        else .error (.unknownKey key)
      | none => .error (.malformedLine line)

/-- Parse the raw data in content against the declared field list, starting
from a copy of the defaults; after the line loop, fail on missing fields, then
fail if the name field disagrees with the account name. Mirrors _ParseAccount
in the source (the set of missing keys is kept in declared-field order). -/
def _ParseAccount (name nameKey : String) (content : String) (fields : List String)
    (defaults : Dict) : Except ParseError Dict :=
  match parseLines fields (splitLines content) defaults with
  | .error e => .error e
  | .ok d =>
    let missing := fields.filter (fun f => (dget d f).isNone)
    if missing ≠ [] then .error (.missingKeys missing)
    else if dget d nameKey ≠ some name then
      .error (.nameMismatch name nameKey ((dget d nameKey).getD ""))
    else .ok d

/-- The Group namedtuple: ('group', 'password', 'gid', 'users', 'defunct'). -/
structure Group where
  group : String
  password : String
  gid : String
  users : String
  defunct : String
deriving DecidableEq, Repr

/-- The User namedtuple: ('user', 'password', 'uid', 'gid', 'gecos', 'home',
'shell', 'defunct'). -/
structure User where
  user : String
  password : String
  uid : String
  gid : String
  gecos : String
  home : String
  shell : String
  defunct : String
deriving DecidableEq, Repr

def groupFields : List String := ["group", "password", "gid", "users", "defunct"]

def groupDefaults : Dict := [("password", "!"), ("users", ""), ("defunct", "")]

def userFields : List String :=
  ["user", "password", "uid", "gid", "gecos", "home", "shell", "defunct"]

def userDefaults : Dict :=
  [("gecos", ""), ("home", "/dev/null"), ("password", "!"), ("shell", "/bin/false"),
   ("defunct", "")]

/-- Parse content as a Group object (source ParseGroup); the record is built
from the fully populated dict, whose keys are exactly the declared fields on
success, so the getD fallbacks are never taken. -/
def ParseGroup (name content : String) : Except ParseError Group :=
  (_ParseAccount name "group" content groupFields groupDefaults).map fun d =>
    { group := (dget d "group").getD "", password := (dget d "password").getD "",
      gid := (dget d "gid").getD "", users := (dget d "users").getD "",
      defunct := (dget d "defunct").getD "" }

/-- Parse content as a User object (source ParseUser). -/
def ParseUser (name content : String) : Except ParseError User :=
  (_ParseAccount name "user" content userFields userDefaults).map fun d =>
    { user := (dget d "user").getD "", password := (dget d "password").getD "",
      uid := (dget d "uid").getD "", gid := (dget d "gid").getD "",
      gecos := (dget d "gecos").getD "", home := (dget d "home").getD "",
      shell := (dget d "shell").getD "", defunct := (dget d "defunct").getD "" }

/-- Python getattr on a Group, as a function from field name to value. -/
def Group.get (g : Group) : String → String := fun f =>
  if f = "group" then g.group
  else if f = "password" then g.password
  else if f = "gid" then g.gid
  else if f = "users" then g.users
  else if f = "defunct" then g.defunct
  else ""

/-- Python getattr on a User, as a function from field name to value. -/
def User.get (u : User) : String → String := fun f =>
  if f = "user" then u.user
  else if f = "password" then u.password
  else if f = "uid" then u.uid
  else if f = "gid" then u.gid
  else if f = "gecos" then u.gecos
  else if f = "home" then u.home
  else if f = "shell" then u.shell
  else if f = "defunct" then u.defunct
  else ""

/-- Source AlignWidths: the width of a field is the maximum value length over
the given records (each record supplied as its getattr function), starting
from the 0 the source initialises each entry with. -/
def AlignWidths (rows : List (String → String)) : String → Nat :=
  fun f => (rows.map (fun g => (g f).length)).foldl max 0

/-- Python str.upper restricted to ASCII, character by character. -/
def strUpper (s : String) : String := ⟨s.data.map Char.toUpper⟩

/-- The synthetic header record: field f holds the uppercased display label
from the column order, or the uppercased field name when the label is empty
(source: obj(**dict((k, (v if v else k).upper()) for k, v in order))). -/
def headerGet (order : List (String × String)) : String → String := fun f =>
  match order.find? (fun p => p.1 == f) with
  | some p => strUpper (if p.2 = "" then p.1 else p.2)
  | none => ""

/-- Python '%-*s' formatting: left-justify to the width, never truncating. -/
def pyLJust (s : String) (w : Nat) : String :=
  s ++ ⟨List.replicate (w - s.length) ' '⟩

/-- One printed row: every ordered field left-justified to its column width and
followed by one space (source loop of '%-*s ' prints). -/
def renderRow (keys : List String) (widths : String → Nat) (g : String → String) : String :=
  keys.foldl (fun acc k => acc ++ pyLJust (g k) (widths k) ++ " ") ""

def isDigitChar (c : Char) : Bool := '0' ≤ c && c ≤ '9'

def natOfDigits (l : List Char) : Nat :=
  l.foldl (fun n c => 10 * n + (c.toNat - '0'.toNat)) 0

/-- Python int(s) restricted to the forms the script can meet: an optional
minus sign followed by decimal digits; anything else (e.g. "abc", "") raises
ValueError, modelled as none. -/
def pyInt? (s : String) : Option Int :=
  match s.data with
  | '-' :: rest =>
    if rest ≠ [] ∧ rest.all isDigitChar = true then some (-(natOfDigits rest : Int))
    else none
  | l =>
    if l ≠ [] ∧ l.all isDigitChar = true then some ((natOfDigits l : Nat) : Int)
    else none

/-- The sort key of DisplayAccounts: int of the first ordered column (the getD
fallback is dead code under the numeric guard of DisplayAccounts). -/
def sortKey (get : α → String → String) (k0 : String) (a : α) : Int :=
  (pyInt? (get a k0)).getD 0

/-- Insert into a sorted list, after every element with a strictly smaller key
and before every element with an equal or larger key. -/
def insertSorted (key : α → Int) (x : α) : List α → List α
  | [] => [x]
  | y :: ys => if key x ≤ key y then x :: y :: ys else y :: insertSorted key x ys

/-- Stable ascending sort by an integer key; extensionally Python
sorted(accts, key=...), since a stable sort is determined by its key order. -/
def sortIns (key : α → Int) : List α → List α
  | [] => []
  | x :: xs => insertSorted key x (sortIns key xs)

/-- Source DisplayAccounts, returning the printed lines: build the header
record, compute widths over header plus data, and emit the header row followed
by the data rows stably sorted by the first column as a base-10 integer. When
some record's first column is not numeric, Python's int() raises an uncaught
ValueError inside sorted(); that failure is the none result. -/
def DisplayAccounts (get : α → String → String) (order : List (String × String))
    (accts : List α) : Option (List String) :=
  let keys := order.map Prod.fst
  let k0 := keys.headD ""
  if accts.all (fun a => (pyInt? (get a k0)).isSome) then
    let hdr := headerGet order
    let widths := AlignWidths (hdr :: accts.map get)
    some (renderRow keys widths hdr ::
      (sortIns (sortKey get k0) accts).map (fun a => renderRow keys widths (get a)))
  else none

/-- The group column order of main. -/
def groupOrder : List (String × String) :=
  [("gid", ""), ("group", ""), ("password", "pass"), ("users", ""), ("defunct", "")]

/-- The user column order of main. -/
def userOrder : List (String × String) :=
  [("uid", ""), ("gid", ""), ("user", ""), ("shell", ""), ("home", ""),
   ("password", "pass"), ("gecos", ""), ("defunct", "")]

/-- Python ', '.join / ' '.join. -/
def pyJoin (sep : String) : List String → String
  | [] => ""
  | [x] => x
  | x :: xs => x ++ sep ++ pyJoin sep xs

/-- Distinct elements in first-occurrence order: the key order of a Python
Counter / set built by insertion over the list. -/
def firstOccur : List String → List String
  | [] => []
  | x :: xs => x :: (firstOccur xs).filter (fun y => y ≠ x)

/-- The ids occurring more than once, in first-occurrence order: the gids/uids
the Counter loops of CheckConsistency report. -/
def dupIds (ids : List String) : List String :=
  (firstOccur ids).filter (fun i => ids.count i > 1)

def dupGids (groups : List Group) : List String := dupIds (groups.map Group.gid)

def dupUids (users : List User) : List String := dupIds (users.map User.uid)

/-- The duplicate-gid diagnostics, one line per duplicated gid listing the gid
and the comma-joined names of every group sharing it. -/
def dupGidDiags (groups : List Group) : List String :=
  (dupGids groups).map fun g =>
    "error: duplicate gid found: " ++ g ++ ": " ++
      pyJoin ", " ((groups.filter (fun x => x.gid = g)).map Group.group)

/-- The duplicate-uid diagnostics, symmetric to dupGidDiags. -/
def dupUidDiags (users : List User) : List String :=
  (dupUids users).map fun u =>
    "error: duplicate uid found: " ++ u ++ ": " ++
      pyJoin ", " ((users.filter (fun x => x.uid = u)).map User.user)

/-- Append the elements of xs not already present (Python set.update, with
first-occurrence order standing in for the unspecified set order). -/
def addNew (acc : List String) (xs : List String) : List String :=
  xs.foldl (fun a x => if a.contains x then a else a ++ [x]) acc

/-- want_users of CheckConsistency: the union of the comma-split users fields
of the groups whose users field is non-empty (the "if group.users:" guard). -/
def wantUsers (groups : List Group) : List String :=
  groups.foldl
    (fun acc grp => if grp.users = "" then acc else addNew acc (pySplit ',' grp.users)) []

/-- missing_users of CheckConsistency: wanted but not found. -/
def missingUsers (groups : List Group) (users : List User) : List String :=
  (wantUsers groups).filter (fun u => !((users.map User.user).contains u))

/-- The dangling-reference diagnostics: a header line, then one line naming the
group and the missing user for every (group, missing user) pair whose user
occurs in the group's comma-split users field. -/
def missingDiags (groups : List Group) (users : List User) : List String :=
  if missingUsers groups users = [] then []
  else
    "error: group lists unknown users" ::
      groups.flatMap fun grp =>
        ((missingUsers groups users).filter
            (fun u => (pySplit ',' grp.users).contains u)).map fun u =>
          "error: group \"" ++ grp.group ++ "\" wants missing user \"" ++ u ++ "\""

/-- Source CheckConsistency: the overall boolean (True iff no rule fired) and
the stderr diagnostics of the three independently evaluated rules in source
order. -/
def CheckConsistency (groups : List Group) (users : List User) : Bool × List String :=
  ((dupGids groups).isEmpty && (dupUids users).isEmpty &&
     (missingUsers groups users).isEmpty,
   dupGidDiags groups ++ dupUidDiags users ++ missingDiags groups users)

/-- Does the needle occur at the head of the haystack? -/
def listHasLead : List Char → List Char → Bool
  | [], _ => true
  | _ :: _, [] => false
  | a :: as, b :: bs => a = b && listHasLead as bs

/-- Python substring test (needle in haystack). -/
def hasSubstr (needle : List Char) : List Char → Bool
  | [] => listHasLead needle []
  | x :: xs => listHasLead needle (x :: xs) || hasSubstr needle xs

/-- The ValueError text of each parse failure as main interpolates it (the
interpreter-generated unpack message of a malformed line is stood in for by a
fixed text; no claim depends on its wording). -/
def pyErrMsg : ParseError → String
  | .malformedLine line => "could not unpack line: " ++ line
  | .unknownKey k => "unknown key: " ++ k
  | .missingKeys ks => "missing keys: " ++ pyJoin " " ks
  | .nameMismatch name nameKey v =>
    "account \"" ++ name ++ "\" has the " ++ nameKey ++ " field set to \"" ++ v ++ "\""

def exceptOk : Except ε α → Bool
  | .ok _ => true
  | .error _ => false

/-- Classify one (basename, content) input and parse it: a file whose content
contains the literal substring "group:" is parsed as a group, any other file
as a user (the classification heuristic of main). -/
def parseOne (f : String × String) : Except ParseError (Group ⊕ User) :=
  if hasSubstr "group:".data f.2.data then (ParseGroup f.1 f.2).map Sum.inl
  else (ParseUser f.1 f.2).map Sum.inr

/-- The file loop of main over (basename, content) pairs: accumulate groups and
users in input order, stopping at the first parse failure with the offending
file's name and error. -/
def loadAccounts : List (String × String) → List Group → List User →
    Except (String × ParseError) (List Group × List User)
  | [], gs, us => .ok (gs, us)
  | f :: rest, gs, us =>
    match parseOne f with
    | .error e => .error (f.1, e)
    | .ok (.inl g) => loadAccounts rest (gs ++ [g]) us
    | .ok (.inr u) => loadAccounts rest gs (us ++ [u])

/-- The tail of main once every file has parsed: display the groups table (if
any), a separating blank line, the users table (if any), then run the
consistency check when enabled. -/
def afterLoad (gs : List Group) (us : List User) (consistencyCheck : Bool) :
    Option (Nat × List String × List String) :=
  let gout : Option (List String) :=
    if gs.isEmpty then some [] else DisplayAccounts Group.get groupOrder gs
  let uout : Option (List String) :=
    if us.isEmpty then some [] else DisplayAccounts User.get userOrder us
  match gout, uout with
  | some gl, some ul =>
    let sep : List String := if gs.isEmpty = false ∧ us.isEmpty = false then [""] else []
    let out := gl ++ sep ++ ul
    if consistencyCheck then
      some (if (CheckConsistency gs us).1 then 0 else 65, out, (CheckConsistency gs us).2)
    else some (0, out, [])
  | _, _ => none

/-- Source main, with argv handling, globbing and file reading abstracted into
the (basename, content) list and the consistency-check flag (the flag is set
exactly when no explicit paths were given). Result: some (exit code, stdout
lines, stderr lines), or none when DisplayAccounts dies on a non-numeric sort
key (an uncaught ValueError, so no ordinary exit status). Exit codes: parse
failure or failed consistency check map to os.EX_DATAERR = 65, completion maps
to 0 (exit(None)). -/
def main (files : List (String × String)) (consistencyCheck : Bool) :
    Option (Nat × List String × List String) :=
  match loadAccounts files [] [] with
  | .error (f, e) => some (65, [], ["error: " ++ f ++ ": " ++ pyErrMsg e])
  | .ok (gs, us) => afterLoad gs us consistencyCheck

/-! Parsing helper notions used by the claim statements. -/

/-- The (key, value) pairs the line loop stores, in line order. -/
def goodPairs (lines : List String) : List (String × String) :=
  lines.filterMap (fun l => if lineSkip l then none else lineKV l)

/-- The value supplied for key k by the last line supplying it, if any: the
first match in the reversed stored-pair list. -/
def lastVal (lines : List String) (k : String) : Option String :=
  dget (goodPairs lines).reverse k

/-- A line the line loop gets past: skipped, or exactly one ':' with a
declared key. -/
def lineGood (fields : List String) (l : String) : Bool :=
  lineSkip l ||
    match lineKV l with
    | some p => fields.contains p.1
    | none => false

def linesGood (fields : List String) (lines : List String) : Bool :=
  lines.all (lineGood fields)

/-- Every declared field either has a default or is supplied by some line. -/
def requiredSupplied (fields : List String) (defaults : Dict) (lines : List String) : Bool :=
  fields.all (fun f => (dget defaults f).isSome || (lastVal lines f).isSome)

theorem some_orElse (a : α) (f : Unit → Option α) : (some a).orElse f = some a := rfl

theorem none_orElse (f : Unit → Option α) : (Option.none).orElse f = f () := rfl

theorem goodPairs_cons_skip (l : String) (ls : List String) (h : lineSkip l = true) :
    goodPairs (l :: ls) = goodPairs ls := by
  simp [goodPairs, List.filterMap_cons, h]

theorem goodPairs_cons_kv (l : String) (ls : List String) (h : lineSkip l = false)
    (k v : String) (hkv : lineKV l = some (k, v)) :
    goodPairs (l :: ls) = (k, v) :: goodPairs ls := by
  simp [goodPairs, List.filterMap_cons, h, hkv]

theorem lineGood_not_skip (fields : List String) (l : String) (h : lineGood fields l = true)
    (hs : lineSkip l = false) :
    ∃ k v, lineKV l = some (k, v) ∧ fields.contains k = true := by
  unfold lineGood at h
  rw [hs] at h
  simp only [Bool.false_or] at h
  cases hkv : lineKV l with
  | none => rw [hkv] at h; simp at h
  | some p =>
    obtain ⟨k, v⟩ := p
    rw [hkv] at h
    exact ⟨k, v, rfl, by simpa using h⟩

/-- Processing well-formed lines just accumulates their pairs onto the dict. -/
theorem parseLines_append (fields : List String) (pre ls : List String) :
    ∀ d : Dict, linesGood fields pre = true →
      parseLines fields (pre ++ ls) d = parseLines fields ls ((goodPairs pre).reverse ++ d) := by
  induction pre with
  | nil => intro d _; simp [goodPairs, parseLines]
  | cons l pre ih =>
    intro d h
    simp only [linesGood, List.all_cons, Bool.and_eq_true] at h
    obtain ⟨h1, h2⟩ := h
    cases hs : lineSkip l with
    | true =>
      rw [List.cons_append, show parseLines fields (l :: (pre ++ ls)) d =
        parseLines fields (pre ++ ls) d from by simp [parseLines, hs]]
      rw [ih d h2, goodPairs_cons_skip l pre hs]
    | false =>
      obtain ⟨k, v, hkv, hk⟩ := lineGood_not_skip fields l h1 hs
      have hk' : k ∈ fields := by simpa using hk
      rw [List.cons_append, show parseLines fields (l :: (pre ++ ls)) d =
        parseLines fields (pre ++ ls) (dset d k v) from by simp [parseLines, hs, hkv, hk']]
      rw [ih _ h2, goodPairs_cons_kv l pre hs k v hkv]
      simp [dset, List.reverse_cons, List.append_assoc]

/-- On well-formed lines the line loop succeeds with the accumulated dict. -/
theorem parseLines_ok (fields : List String) (lines : List String) (d : Dict)
    (h : linesGood fields lines = true) :
    parseLines fields lines d = .ok ((goodPairs lines).reverse ++ d) := by
  have := parseLines_append fields lines [] d h
  simpa [parseLines] using this

theorem dget_append (d1 d2 : Dict) (f : String) :
    dget (d1 ++ d2) f = (dget d1 f).orElse fun _ => dget d2 f := by
  induction d1 with
  | nil => simp [dget, none_orElse]
  | cons p d1 ih =>
    rw [List.cons_append]
    by_cases hp : p.1 = f
    · simp [dget, hp, some_orElse]
    · simp [dget, hp, ih]

/-- The final dict: last write wins, defaults fill the unsupplied keys. -/
theorem dget_parsed (lines : List String) (defaults : Dict) (f : String) :
    dget ((goodPairs lines).reverse ++ defaults) f =
      (lastVal lines f).orElse fun _ => dget defaults f := by
  rw [dget_append, lastVal]

theorem requiredSupplied_spec (fields : List String) (defaults : Dict) (lines : List String)
    (h : requiredSupplied fields defaults lines = true) (f : String) (hf : f ∈ fields) :
    (dget defaults f).isSome = true ∨ (lastVal lines f).isSome = true := by
  simp only [requiredSupplied, List.all_eq_true, Bool.or_eq_true] at h
  exact h f hf

/-- Success of _ParseAccount under well-formed lines, all required fields
supplied, and the name field carrying the account name. -/
theorem _ParseAccount_ok (name nameKey content : String) (fields : List String) (defaults : Dict)
    (hg : linesGood fields (splitLines content) = true)
    (hr : requiredSupplied fields defaults (splitLines content) = true)
    (hn : lastVal (splitLines content) nameKey = some name) :
    _ParseAccount name nameKey content fields defaults =
      .ok ((goodPairs (splitLines content)).reverse ++ defaults) := by
  have hparse := parseLines_ok fields (splitLines content) defaults hg
  have hmiss : fields.filter
      (fun f => (dget ((goodPairs (splitLines content)).reverse ++ defaults) f).isNone) = [] := by
    rw [List.filter_eq_nil_iff]
    intro f hf
    rw [dget_parsed]
    cases hl : lastVal (splitLines content) f with
    | some v => simp [some_orElse]
    | none =>
      rw [none_orElse]
      rcases requiredSupplied_spec fields defaults _ hr f hf with h | h
      · cases hd : dget defaults f <;> simp_all
      · rw [hl] at h; simp at h
  have hnk : dget ((goodPairs (splitLines content)).reverse ++ defaults) nameKey = some name := by
    rw [dget_parsed, hn, some_orElse]
  unfold _ParseAccount
  rw [hparse]
  simp [hmiss, hnk]

theorem dget_groupDefaults_group : dget groupDefaults "group" = none := rfl
theorem dget_groupDefaults_gid : dget groupDefaults "gid" = none := rfl
theorem dget_groupDefaults_password : dget groupDefaults "password" = some "!" := rfl
theorem dget_groupDefaults_users : dget groupDefaults "users" = some "" := rfl
theorem dget_groupDefaults_defunct : dget groupDefaults "defunct" = some "" := rfl

theorem orElse_none_getD (o : Option String) :
    ((o.orElse fun _ => none).getD "") = o.getD "" := by cases o <;> rfl

theorem orElse_some_getD (o : Option String) (d : String) :
    ((o.orElse fun _ => some d).getD "") = o.getD d := by cases o <;> rfl

/-- C1 (amended): for either record kind, on raw text whose non-blank,
non-comment lines each carry exactly one ':' with a declared key, with every
required field supplied by some line, and with the name field's final value
equal to the account name, Parse succeeds with a record in which each field
holds the value from the last line supplying that key, or the schema default
for fields never supplied ('!' for password, '' for users/gecos/defunct,
'/dev/null' for home, '/bin/false' for shell), and no field is unset. -/
theorem parse_wellformed_fills_fields (name content : String) :
    (linesGood groupFields (splitLines content) = true →
      requiredSupplied groupFields groupDefaults (splitLines content) = true →
      lastVal (splitLines content) "group" = some name →
      ParseGroup name content = .ok
        { group := (lastVal (splitLines content) "group").getD "",
          password := (lastVal (splitLines content) "password").getD "!",
          gid := (lastVal (splitLines content) "gid").getD "",
          users := (lastVal (splitLines content) "users").getD "",
          defunct := (lastVal (splitLines content) "defunct").getD "" }) ∧
    (linesGood userFields (splitLines content) = true →
      requiredSupplied userFields userDefaults (splitLines content) = true →
      lastVal (splitLines content) "user" = some name →
      ParseUser name content = .ok
        { user := (lastVal (splitLines content) "user").getD "",
          password := (lastVal (splitLines content) "password").getD "!",
          uid := (lastVal (splitLines content) "uid").getD "",
          gid := (lastVal (splitLines content) "gid").getD "",
          gecos := (lastVal (splitLines content) "gecos").getD "",
          home := (lastVal (splitLines content) "home").getD "/dev/null",
          shell := (lastVal (splitLines content) "shell").getD "/bin/false",
          defunct := (lastVal (splitLines content) "defunct").getD "" }) := by
  constructor
  · intro hg hr hn
    unfold ParseGroup
    rw [_ParseAccount_ok name "group" content groupFields groupDefaults hg hr hn]
    simp only [Except.map, dget_parsed, dget_groupDefaults_group, dget_groupDefaults_gid,
      dget_groupDefaults_password, dget_groupDefaults_users, dget_groupDefaults_defunct,
      orElse_none_getD, orElse_some_getD]
  · intro hg hr hn
    unfold ParseUser
    rw [_ParseAccount_ok name "user" content userFields userDefaults hg hr hn]
    simp only [Except.map, dget_parsed,
      show dget userDefaults "user" = none from rfl,
      show dget userDefaults "uid" = none from rfl,
      show dget userDefaults "gid" = none from rfl,
      show dget userDefaults "password" = some "!" from rfl,
      show dget userDefaults "gecos" = some "" from rfl,
      show dget userDefaults "home" = some "/dev/null" from rfl,
      show dget userDefaults "shell" = some "/bin/false" from rfl,
      show dget userDefaults "defunct" = some "" from rfl,
      orElse_none_getD, orElse_some_getD]

/-- Witness for C1: both halves applied to concrete well-formed inputs. -/
theorem parse_wellformed_fills_fields_witness :
    ParseGroup "wheel" "group:wheel\ngid:10\nusers:root" = .ok
      { group := "wheel", password := "!", gid := "10", users := "root", defunct := "" } ∧
    ParseUser "root" "user:root\nuid:0\ngid:0" = .ok
      { user := "root", password := "!", uid := "0", gid := "0", gecos := "",
        home := "/dev/null", shell := "/bin/false", defunct := "" } := by
  constructor
  · have h := (parse_wellformed_fills_fields "wheel" "group:wheel\ngid:10\nusers:root").1
      (by decide) (by decide) (by decide)
    rw [h]; rfl
  · have h := (parse_wellformed_fills_fields "root" "user:root\nuid:0\ngid:0").2
      (by decide) (by decide) (by decide)
    rw [h]; rfl

/-- Counterexample to C1 as stated: every precondition named by the claim holds
of this text (well-formed lines, declared keys, all required fields supplied),
yet Parse does not return a record, because the group field's value "other"
disagrees with the account name "wheel". -/
theorem parse_wellformed_fills_fields_cex :
    linesGood groupFields (splitLines "group:other\ngid:5") = true ∧
    requiredSupplied groupFields groupDefaults (splitLines "group:other\ngid:5") = true ∧
    exceptOk (ParseGroup "wheel" "group:other\ngid:5") = false := by
  exact ⟨by decide, by decide, by decide⟩

/-! Parse failure lemmas. -/

/-- The fields the missing-keys check reports: declared, unsupplied, and
without a default (in declared-field order; the source joins a set). -/
def absentFields (fields : List String) (defaults : Dict) (lines : List String) : List String :=
  fields.filter (fun f => ((lastVal lines f).orElse fun _ => dget defaults f).isNone)

theorem mem_absentFields (fields : List String) (defaults : Dict) (lines : List String)
    (f : String) :
    f ∈ absentFields fields defaults lines ↔
      f ∈ fields ∧ dget defaults f = none ∧ lastVal lines f = none := by
  unfold absentFields
  rw [List.mem_filter]
  apply and_congr_right
  intro _
  cases h1 : lastVal lines f <;> cases h2 : dget defaults f <;>
    simp [some_orElse, none_orElse, h1, h2]

theorem _ParseAccount_missing (name nameKey content : String) (fields : List String)
    (defaults : Dict)
    (hg : linesGood fields (splitLines content) = true)
    (hr : requiredSupplied fields defaults (splitLines content) = false) :
    _ParseAccount name nameKey content fields defaults =
      .error (.missingKeys (absentFields fields defaults (splitLines content))) := by
  have hparse := parseLines_ok fields (splitLines content) defaults hg
  have heq : (fields.filter
      (fun f => (dget ((goodPairs (splitLines content)).reverse ++ defaults) f).isNone)) =
      absentFields fields defaults (splitLines content) := by
    unfold absentFields
    apply List.filter_congr
    intro f _
    rw [dget_parsed]
  have hne : absentFields fields defaults (splitLines content) ≠ [] := by
    simp only [requiredSupplied, List.all_eq_false] at hr
    obtain ⟨f, hf, hnot⟩ := hr
    rw [Bool.or_eq_true, not_or] at hnot
    obtain ⟨hd, hl⟩ := hnot
    have h1 : dget defaults f = none := by
      cases h : dget defaults f
      · rfl
      · rw [h] at hd; simp at hd
    have h2 : lastVal (splitLines content) f = none := by
      cases h : lastVal (splitLines content) f
      · rfl
      · rw [h] at hl; simp at hl
    intro hnil
    have hmem : f ∈ absentFields fields defaults (splitLines content) :=
      (mem_absentFields fields defaults (splitLines content) f).mpr ⟨hf, h1, h2⟩
    rw [hnil] at hmem
    exact absurd hmem (List.not_mem_nil f)
  unfold _ParseAccount
  rw [hparse]
  simp [heq, hne]

theorem _ParseAccount_unknown (name nameKey content : String) (fields : List String)
    (defaults : Dict) (pre rest : List String) (line k v : String)
    (hsplit : splitLines content = pre ++ line :: rest)
    (hpre : linesGood fields pre = true) (hs : lineSkip line = false)
    (hkv : lineKV line = some (k, v)) (hk : fields.contains k = false) :
    _ParseAccount name nameKey content fields defaults = .error (.unknownKey k) := by
  have hk' : k ∉ fields := by simpa using hk
  unfold _ParseAccount
  rw [hsplit, parseLines_append fields pre (line :: rest) defaults hpre]
  simp [parseLines, hs, hkv, hk']

theorem _ParseAccount_malformed (name nameKey content : String) (fields : List String)
    (defaults : Dict) (pre rest : List String) (line : String)
    (hsplit : splitLines content = pre ++ line :: rest)
    (hpre : linesGood fields pre = true) (hs : lineSkip line = false)
    (hkv : lineKV line = none) :
    _ParseAccount name nameKey content fields defaults = .error (.malformedLine line) := by
  unfold _ParseAccount
  rw [hsplit, parseLines_append fields pre (line :: rest) defaults hpre]
  simp [parseLines, hs, hkv]

theorem splitOnChar_ne_nil (c : Char) (l : List Char) : splitOnChar c l ≠ [] := by
  induction l with
  | nil => simp [splitOnChar]
  | cons x xs ih =>
    simp only [splitOnChar]
    by_cases hx : x = c
    · simp [hx]
    · simp only [hx, if_false]
      rcases h : splitOnChar c xs with _ | ⟨y, ys⟩
      · exact absurd h ih
      · simp

/-- The number of split pieces is the separator count plus one, as in Python
str.split; so "exactly one ':'" is the same as "exactly two pieces". -/
theorem splitOnChar_length (c : Char) (l : List Char) :
    (splitOnChar c l).length = l.count c + 1 := by
  induction l with
  | nil => simp [splitOnChar]
  | cons x xs ih =>
    simp only [splitOnChar]
    by_cases hx : x = c
    · simp [hx, List.count_cons, ih]
    · rcases h : splitOnChar c xs with _ | ⟨y, ys⟩
      · exact absurd h (splitOnChar_ne_nil c xs)
      · rw [h] at ih
        have hxc : (x == c) = false := by simp [hx]
        simp only [List.length_cons] at ih
        simp [hx, List.count_cons, hxc]
        omega

theorem lineKV_eq_none_iff (l : String) : lineKV l = none ↔ l.data.count ':' ≠ 1 := by
  unfold lineKV
  have hlen := splitOnChar_length ':' l.data
  rcases h : splitOnChar ':' l.data with _ | ⟨a, _ | ⟨b, _ | ⟨c, t⟩⟩⟩ <;>
    rw [h] at hlen <;> (simp_all; try omega)

/-- C6: for either record kind, on raw text whose lines are otherwise well
formed, if at least one field without a schema default is supplied by no line,
Parse fails with a MissingFields error whose key list holds exactly the
declared fields which have no default and were never supplied — and no
others. -/
theorem parse_missing_exact (name content : String) :
    (linesGood groupFields (splitLines content) = true →
      requiredSupplied groupFields groupDefaults (splitLines content) = false →
      ParseGroup name content =
        .error (.missingKeys (absentFields groupFields groupDefaults (splitLines content))) ∧
      ∀ f, f ∈ absentFields groupFields groupDefaults (splitLines content) ↔
        (f ∈ groupFields ∧ dget groupDefaults f = none ∧
          lastVal (splitLines content) f = none)) ∧
    (linesGood userFields (splitLines content) = true →
      requiredSupplied userFields userDefaults (splitLines content) = false →
      ParseUser name content =
        .error (.missingKeys (absentFields userFields userDefaults (splitLines content))) ∧
      ∀ f, f ∈ absentFields userFields userDefaults (splitLines content) ↔
        (f ∈ userFields ∧ dget userDefaults f = none ∧
          lastVal (splitLines content) f = none)) := by
  constructor
  · intro hg hr
    refine ⟨?_, fun f => mem_absentFields groupFields groupDefaults (splitLines content) f⟩
    unfold ParseGroup
    rw [_ParseAccount_missing name "group" content groupFields groupDefaults hg hr]
    rfl
  · intro hg hr
    refine ⟨?_, fun f => mem_absentFields userFields userDefaults (splitLines content) f⟩
    unfold ParseUser
    rw [_ParseAccount_missing name "user" content userFields userDefaults hg hr]
    rfl

/-- Witness for C6: a group text missing its group field, a user text missing
its user and gid fields. -/
theorem parse_missing_exact_witness :
    ParseGroup "g" "gid:1" = .error (.missingKeys ["group"]) ∧
    ParseUser "u" "uid:1" = .error (.missingKeys ["user", "gid"]) := by
  constructor
  · have h := (parse_missing_exact "g" "gid:1").1 (by decide) (by decide)
    rw [h.1]; rfl
  · have h := (parse_missing_exact "u" "uid:1").2 (by decide) (by decide)
    rw [h.1]; rfl

/-- C7 (amended): for either record kind, when the raw text's first offending
line — every earlier line being blank, a comment, or a single-':' line with a
declared key — is non-blank, is no comment, splits into exactly one key and
value, and its key is undeclared, Parse fails with UnknownField naming that
key, whatever follows that line. -/
theorem parse_unknown_at_first_bad_line (name content : String) (pre rest : List String)
    (line k v : String)
    (hsplit : splitLines content = pre ++ line :: rest)
    (hne : line ≠ "") (hnh : startsWithHash line = false)
    (hkv : lineKV line = some (k, v)) :
    (linesGood groupFields pre = true → groupFields.contains k = false →
      ParseGroup name content = .error (.unknownKey k)) ∧
    (linesGood userFields pre = true → userFields.contains k = false →
      ParseUser name content = .error (.unknownKey k)) := by
  have hs : lineSkip line = false := by simp [lineSkip, hne, hnh]
  constructor
  · intro hpre hk
    unfold ParseGroup
    rw [_ParseAccount_unknown name "group" content groupFields groupDefaults
      pre rest line k v hsplit hpre hs hkv hk]
    rfl
  · intro hpre hk
    unfold ParseUser
    rw [_ParseAccount_unknown name "user" content userFields userDefaults
      pre rest line k v hsplit hpre hs hkv hk]
    rfl

/-- Witness for C7: an undeclared key on the second line of a group file and
of a user file. -/
theorem parse_unknown_at_first_bad_line_witness :
    ParseGroup "g" "group:g\nbogus:1\ngid:5" = .error (.unknownKey "bogus") ∧
    ParseUser "u" "user:u\nbogus:1" = .error (.unknownKey "bogus") := by
  constructor
  · exact (parse_unknown_at_first_bad_line "g" "group:g\nbogus:1\ngid:5" ["group:g"]
      ["gid:5"] "bogus:1" "bogus" "1" (by decide) (by decide) (by decide) (by decide)).1
      (by decide) (by decide)
  · exact (parse_unknown_at_first_bad_line "u" "user:u\nbogus:1" ["user:u"] []
      "bogus:1" "bogus" "1" (by decide) (by decide) (by decide) (by decide)).2
      (by decide) (by decide)

/-- Counterexample to C7 as stated: the text holds the non-blank, non-comment
line "bbb:2" whose key "bbb" is undeclared, yet Parse does not fail with an
UnknownField naming "bbb" — the earlier offending line wins and "aaa" is
named. -/
theorem parse_unknown_at_first_bad_line_cex :
    splitLines "aaa:1\nbbb:2" = ["aaa:1", "bbb:2"] ∧
    "bbb:2" ≠ "" ∧ startsWithHash "bbb:2" = false ∧
    lineKV "bbb:2" = some ("bbb", "2") ∧ groupFields.contains "bbb" = false ∧
    ParseGroup "g" "aaa:1\nbbb:2" = .error (.unknownKey "aaa") ∧
    ParseError.unknownKey "aaa" ≠ ParseError.unknownKey "bbb" := by
  exact ⟨by decide, by decide, by decide, by decide, by decide, rfl, by decide⟩

/-- C8 (amended): for either record kind, when the raw text's first offending
line — every earlier line being blank, a comment, or a single-':' line with a
declared key — is non-blank, is no comment, and contains zero or more than one
':', Parse fails with the malformed-line error on that very line. -/
theorem parse_malformed_at_first_bad_line (name content : String) (pre rest : List String)
    (line : String)
    (hsplit : splitLines content = pre ++ line :: rest)
    (hne : line ≠ "") (hnh : startsWithHash line = false)
    (hcolon : line.data.count ':' ≠ 1) :
    (linesGood groupFields pre = true →
      ParseGroup name content = .error (.malformedLine line)) ∧
    (linesGood userFields pre = true →
      ParseUser name content = .error (.malformedLine line)) := by
  have hs : lineSkip line = false := by simp [lineSkip, hne, hnh]
  have hkv : lineKV line = none := (lineKV_eq_none_iff line).mpr hcolon
  constructor
  · intro hpre
    unfold ParseGroup
    rw [_ParseAccount_malformed name "group" content groupFields groupDefaults
      pre rest line hsplit hpre hs hkv]
    rfl
  · intro hpre
    unfold ParseUser
    rw [_ParseAccount_malformed name "user" content userFields userDefaults
      pre rest line hsplit hpre hs hkv]
    rfl

/-- Witness for C8: a zero-colon line and a two-colon line, each first. -/
theorem parse_malformed_at_first_bad_line_witness :
    ParseGroup "g" "group:g\nnocolon" = .error (.malformedLine "nocolon") ∧
    ParseUser "u" "a:b:c" = .error (.malformedLine "a:b:c") := by
  constructor
  · exact (parse_malformed_at_first_bad_line "g" "group:g\nnocolon" ["group:g"] []
      "nocolon" (by decide) (by decide) (by decide) (by decide)).1 (by decide)
  · exact (parse_malformed_at_first_bad_line "u" "a:b:c" [] [] "a:b:c"
      (by decide) (by decide) (by decide) (by decide)).2 (by decide)

/-- Counterexample to C8 as stated: the text holds the non-blank, non-comment,
zero-':' line "x", yet Parse does not fail with a malformed-line error — the
earlier undeclared key "zzz" wins and an UnknownField error is raised. -/
theorem parse_malformed_at_first_bad_line_cex :
    splitLines "zzz:1\nx" = ["zzz:1", "x"] ∧
    "x" ≠ "" ∧ startsWithHash "x" = false ∧ List.count ':' "x".data = 0 ∧
    ParseGroup "g" "zzz:1\nx" = .error (.unknownKey "zzz") ∧
    ParseError.unknownKey "zzz" ≠ ParseError.malformedLine "x" := by
  exact ⟨by decide, by decide, by decide, by decide, rfl, by decide⟩

/-- C10: the parser's error checks are ordered. First, an undeclared key is
reported at the first offending line, whatever lines follow; second, after a
clean line loop the missing-fields check fires before the name-mismatch
check, so an input exhibiting both a missing required field and a mismatched
name field reports MissingFields, not NameMismatch. Stated over _ParseAccount,
hence for every record kind. -/
theorem parse_error_check_order (name nameKey content : String) (fields : List String)
    (defaults : Dict) :
    (∀ pre line rest k v, splitLines content = pre ++ line :: rest →
      linesGood fields pre = true → line ≠ "" → startsWithHash line = false →
      lineKV line = some (k, v) → fields.contains k = false →
      _ParseAccount name nameKey content fields defaults = .error (.unknownKey k)) ∧
    (linesGood fields (splitLines content) = true →
      requiredSupplied fields defaults (splitLines content) = false →
      ((lastVal (splitLines content) nameKey).orElse fun _ => dget defaults nameKey) ≠
        some name →
      _ParseAccount name nameKey content fields defaults =
        .error (.missingKeys (absentFields fields defaults (splitLines content)))) := by
  constructor
  · intro pre line rest k v hsplit hpre hne hnh hkv hk
    have hs : lineSkip line = false := by simp [lineSkip, hne, hnh]
    exact _ParseAccount_unknown name nameKey content fields defaults
      pre rest line k v hsplit hpre hs hkv hk
  · intro hg hr _
    exact _ParseAccount_missing name nameKey content fields defaults hg hr

/-- Witness for C10: the unknown key on line two is reported although line
three is fine; a text both missing gid and naming the wrong group reports the
missing key, not the mismatch. -/
theorem parse_error_check_order_witness :
    _ParseAccount "g" "group" "group:g\nbogus:1\ngid:5" groupFields groupDefaults =
      .error (.unknownKey "bogus") ∧
    _ParseAccount "wheel" "group" "group:wrong" groupFields groupDefaults =
      .error (.missingKeys ["gid"]) := by
  constructor
  · exact (parse_error_check_order "g" "group" "group:g\nbogus:1\ngid:5" groupFields
      groupDefaults).1 ["group:g"] "bogus:1" ["gid:5"] "bogus" "1"
      (by decide) (by decide) (by decide) (by decide) (by decide) (by decide)
  · have h := (parse_error_check_order "wheel" "group" "group:wrong" groupFields
      groupDefaults).2 (by decide) (by decide) (by decide)
    rw [h]; rfl

/-! Width and sorting lemmas for the table formatter. -/

theorem le_foldl_max_init (l : List Nat) (a : Nat) : a ≤ l.foldl max a := by
  induction l generalizing a with
  | nil => exact Nat.le_refl a
  | cons x xs ih => exact le_trans (Nat.le_max_left a x) (ih (max a x))

theorem le_foldl_max (l : List Nat) (a : Nat) (x : Nat) (hx : x ∈ l) : x ≤ l.foldl max a := by
  induction l generalizing a with
  | nil => cases hx
  | cons y ys ih =>
    rcases List.mem_cons.mp hx with rfl | hmem
    · exact le_trans (Nat.le_max_right a x) (le_foldl_max_init ys (max a x))
    · exact ih (max a y) hmem

theorem foldl_max_attained (l : List Nat) (a : Nat) : l.foldl max a = a ∨ l.foldl max a ∈ l := by
  induction l generalizing a with
  | nil => exact Or.inl rfl
  | cons x xs ih =>
    rcases ih (max a x) with h | h
    · rcases max_choice a x with hm | hm
      · exact Or.inl (by rw [List.foldl_cons, h, hm])
      · exact Or.inr (by rw [List.foldl_cons, h, hm]; exact List.mem_cons_self x xs)
    · exact Or.inr (List.mem_cons_of_mem x h)

theorem insertSorted_perm (key : α → Int) (x : α) (l : List α) :
    List.Perm (insertSorted key x l) (x :: l) := by
  induction l with
  | nil => exact List.Perm.refl [x]
  | cons y ys ih =>
    by_cases h : key x ≤ key y
    · simp [insertSorted, h]
    · simp only [insertSorted, h, if_false]
      exact (ih.cons y).trans (List.Perm.swap x y ys)

theorem sortIns_perm (key : α → Int) (l : List α) : List.Perm (sortIns key l) l := by
  induction l with
  | nil => exact List.Perm.refl []
  | cons x xs ih => exact (insertSorted_perm key x (sortIns key xs)).trans (ih.cons x)

theorem insertSorted_pairwise (key : α → Int) (x : α) (l : List α)
    (h : List.Pairwise (fun a b => key a ≤ key b) l) :
    List.Pairwise (fun a b => key a ≤ key b) (insertSorted key x l) := by
  induction l with
  | nil => simp [insertSorted]
  | cons y ys ih =>
    rw [List.pairwise_cons] at h
    obtain ⟨hy, hys⟩ := h
    by_cases hxy : key x ≤ key y
    · simp only [insertSorted, hxy, if_true]
      rw [List.pairwise_cons]
      refine ⟨?_, by rw [List.pairwise_cons]; exact ⟨hy, hys⟩⟩
      intro b hb
      rcases List.mem_cons.mp hb with rfl | hmem
      · exact hxy
      · exact le_trans hxy (hy b hmem)
    · simp only [insertSorted, hxy, if_false]
      rw [List.pairwise_cons]
      refine ⟨?_, ih hys⟩
      intro b hb
      rcases List.mem_cons.mp ((insertSorted_perm key x ys).mem_iff.mp hb) with rfl | hmem
      · exact le_of_lt (lt_of_not_le hxy)
      · exact hy b hmem

theorem sortIns_pairwise (key : α → Int) (l : List α) :
    List.Pairwise (fun a b => key a ≤ key b) (sortIns key l) := by
  induction l with
  | nil => simp [sortIns]
  | cons x xs ih => exact insertSorted_pairwise key x (sortIns key xs) ih

theorem insertSorted_filter (key : α → Int) (x : α) (l : List α) (n : Int) :
    (insertSorted key x l).filter (fun a => key a == n) =
      if key x = n then x :: l.filter (fun a => key a == n)
      else l.filter (fun a => key a == n) := by
  induction l with
  | nil =>
    by_cases hx : key x = n
    · simp [insertSorted, List.filter_cons, hx]
    · have hxb : (key x == n) = false := by simp [hx]
      simp [insertSorted, List.filter_cons, hxb, hx]
  | cons y ys ih =>
    by_cases hxy : key x ≤ key y
    · simp only [insertSorted, hxy, if_true]
      by_cases hx : key x = n <;> simp [List.filter_cons, hx]
    · simp only [insertSorted, hxy, if_false]
      have hylt : key y < key x := lt_of_not_le hxy
      by_cases hx : key x = n
      · have hy : (key y == n) = false := by
          simp only [beq_eq_false_iff_ne, ne_eq]
          intro hyn
          rw [hx] at hylt
          rw [hyn] at hylt
          exact lt_irrefl n hylt
        simp [List.filter_cons, hy, ih, hx]
      · by_cases hy : key y = n <;> simp [List.filter_cons, hy, ih, hx]

theorem sortIns_filter (key : α → Int) (l : List α) (n : Int) :
    (sortIns key l).filter (fun a => key a == n) = l.filter (fun a => key a == n) := by
  induction l with
  | nil => rfl
  | cons x xs ih =>
    rw [show sortIns key (x :: xs) = insertSorted key x (sortIns key xs) from rfl]
    rw [insertSorted_filter]
    by_cases hx : key x = n <;> simp [List.filter_cons, hx, ih]

/-- Rendering succeeds exactly when every record's first ordered column parses
as a decimal integer. -/
theorem DisplayAccounts_isSome_iff {α : Type} (get : α → String → String)
    (order : List (String × String)) (accts : List α) :
    (DisplayAccounts get order accts).isSome = true ↔
      accts.all (fun a => (pyInt? (get a ((order.map Prod.fst).headD ""))).isSome) = true := by
  simp only [DisplayAccounts]
  cases hg : accts.all (fun a => (pyInt? (get a ((order.map Prod.fst).headD ""))).isSome) <;>
    simp

/-- C4: on a non-empty record list whose first-column values are decimal
integer strings, DisplayAccounts emits the header row first and then exactly
the data rows of the stably sorted records: the sorted list is a permutation
of the input, its keys ascend, and for every key value the records carrying it
appear in their original relative order (equal filters), the header being no
part of the sort. -/
theorem DisplayAccounts_sorted_stable {α : Type} (get : α → String → String)
    (order : List (String × String)) (accts : List α) (_hne : accts ≠ [])
    (hnum : accts.all
      (fun a => (pyInt? (get a ((order.map Prod.fst).headD ""))).isSome) = true) :
    DisplayAccounts get order accts = some
      (renderRow (order.map Prod.fst) (AlignWidths (headerGet order :: accts.map get))
          (headerGet order) ::
        (sortIns (sortKey get ((order.map Prod.fst).headD "")) accts).map
          (fun a => renderRow (order.map Prod.fst)
            (AlignWidths (headerGet order :: accts.map get)) (get a))) ∧
    List.Perm (sortIns (sortKey get ((order.map Prod.fst).headD "")) accts) accts ∧
    List.Pairwise
      (fun a b => sortKey get ((order.map Prod.fst).headD "") a ≤
        sortKey get ((order.map Prod.fst).headD "") b)
      (sortIns (sortKey get ((order.map Prod.fst).headD "")) accts) ∧
    ∀ n : Int,
      (sortIns (sortKey get ((order.map Prod.fst).headD "")) accts).filter
          (fun a => sortKey get ((order.map Prod.fst).headD "") a == n) =
        accts.filter (fun a => sortKey get ((order.map Prod.fst).headD "") a == n) := by
  refine ⟨?_, sortIns_perm _ accts, sortIns_pairwise _ accts, fun n => sortIns_filter _ accts n⟩
  simp only [DisplayAccounts]
  rw [hnum]
  rfl

/-- Witness for C4, the worked example of the claim: gids "10", "2", "2" with
distinct group names render as the two gid-2 rows in input order followed by
the gid-10 row, after the header. -/
theorem DisplayAccounts_sorted_stable_witness :
    DisplayAccounts Group.get groupOrder
      [{ group := "a", password := "!", gid := "10", users := "", defunct := "" },
       { group := "b", password := "!", gid := "2", users := "", defunct := "" },
       { group := "c", password := "!", gid := "2", users := "", defunct := "" }] =
      some ["GID GROUP PASS USERS DEFUNCT ",
            "2   b     !                  ",
            "2   c     !                  ",
            "10  a     !                  "] := by
  have h := (DisplayAccounts_sorted_stable Group.get groupOrder
    [{ group := "a", password := "!", gid := "10", users := "", defunct := "" },
     { group := "b", password := "!", gid := "2", users := "", defunct := "" },
     { group := "c", password := "!", gid := "2", users := "", defunct := "" }]
    (by decide) (by decide)).1
  rw [h]
  rfl

/-- C5: each column's width is the maximum cell length over the synthetic
header record and all data records — it is attained by some row and bounds
every row — and left-justifying any of those cells to that width keeps the
full text (the padded cell is the text followed by spaces, its length the
larger of width and text length), so no cell is truncated. -/
theorem AlignWidths_covers_cells {α : Type} (get : α → String → String)
    (order : List (String × String)) (accts : List α) (f : String) :
    AlignWidths (headerGet order :: accts.map get) f ∈
      (headerGet order :: accts.map get).map (fun g => (g f).length) ∧
    (∀ g ∈ headerGet order :: accts.map get,
      (g f).length ≤ AlignWidths (headerGet order :: accts.map get) f) ∧
    (∀ g ∈ headerGet order :: accts.map get,
      (∃ t : String, pyLJust (g f) (AlignWidths (headerGet order :: accts.map get) f) =
        (g f) ++ t) ∧
      (pyLJust (g f) (AlignWidths (headerGet order :: accts.map get) f)).length =
        max (AlignWidths (headerGet order :: accts.map get) f) (g f).length) := by
  have hub : ∀ g ∈ headerGet order :: accts.map get,
      (g f).length ≤ AlignWidths (headerGet order :: accts.map get) f := by
    intro g hg
    exact le_foldl_max _ 0 _ (List.mem_map_of_mem (fun g => (g f).length) hg)
  refine ⟨?_, hub, ?_⟩
  · rcases foldl_max_attained
      ((headerGet order :: accts.map get).map (fun g => (g f).length)) 0 with h | h
    · have hhd : (headerGet order f).length ≤
          AlignWidths (headerGet order :: accts.map get) f :=
        hub (headerGet order) (List.mem_cons_self _ _)
      have h0 : AlignWidths (headerGet order :: accts.map get) f = 0 := h
      have hlen : (headerGet order f).length = 0 := by
        rw [h0] at hhd
        exact Nat.le_zero.mp hhd
      rw [h0, ← hlen]
      exact List.mem_map_of_mem (fun g => (g f).length)
        (List.mem_cons_self (headerGet order) (accts.map get))
    · exact h
  · intro g _
    constructor
    · exact ⟨⟨List.replicate
        (AlignWidths (headerGet order :: accts.map get) f - (g f).length) ' '⟩, rfl⟩
    · rw [pyLJust, String.length_append]
      have : (String.mk (List.replicate
          (AlignWidths (headerGet order :: accts.map get) f - (g f).length) ' ')).length =
          AlignWidths (headerGet order :: accts.map get) f - (g f).length := by
        show (List.replicate _ ' ').length = _
        exact List.length_replicate _ _
      rw [this]
      omega

/-- Witness for C5: the attained-maximum part at the concrete record list of
the C4 witness, gid column. -/
theorem AlignWidths_covers_cells_witness :
    AlignWidths (headerGet groupOrder ::
        ([{ group := "a", password := "!", gid := "10", users := "", defunct := "" },
          { group := "b", password := "!", gid := "2", users := "", defunct := "" }] :
          List Group).map Group.get) "gid" ∈
      (headerGet groupOrder ::
        ([{ group := "a", password := "!", gid := "10", users := "", defunct := "" },
          { group := "b", password := "!", gid := "2", users := "", defunct := "" }] :
          List Group).map Group.get).map (fun g => (g "gid").length) :=
  (AlignWidths_covers_cells Group.get groupOrder
    [{ group := "a", password := "!", gid := "10", users := "", defunct := "" },
     { group := "b", password := "!", gid := "2", users := "", defunct := "" }] "gid").1

/-- C9: Parse performs no numeric validation of gid/uid — a group file whose
gid is "abc" parses fine — while DisplayAccounts fails (none) on a record set
containing that record; and rendering succeeds exactly when every record's
leading column is a decimal integer string. -/
theorem parse_no_numeric_validation :
    ParseGroup "g" "group:g\ngid:abc" = .ok
      { group := "g", password := "!", gid := "abc", users := "", defunct := "" } ∧
    DisplayAccounts Group.get groupOrder
      [{ group := "g", password := "!", gid := "abc", users := "", defunct := "" }] = none ∧
    ∀ accts : List Group,
      (DisplayAccounts Group.get groupOrder accts).isSome = true ↔
        ∀ a ∈ accts, (pyInt? a.gid).isSome = true := by
  refine ⟨rfl, rfl, ?_⟩
  intro accts
  rw [DisplayAccounts_isSome_iff Group.get groupOrder accts]
  exact List.all_eq_true

/-- Witness for C9: the rendering-succeeds direction applied to a concrete
numeric record set. -/
theorem parse_no_numeric_validation_witness :
    (DisplayAccounts Group.get groupOrder
      [{ group := "g", password := "!", gid := "7", users := "", defunct := "" }]).isSome =
      true :=
  (parse_no_numeric_validation.2.2
    [{ group := "g", password := "!", gid := "7", users := "", defunct := "" }]).mpr
    (by decide)

/-! Consistency checker lemmas. -/

theorem isEmpty_iff_nil (l : List α) : l.isEmpty = true ↔ l = [] := by
  cases l <;> simp

theorem mem_firstOccur (l : List String) (x : String) : x ∈ firstOccur l ↔ x ∈ l := by
  induction l with
  | nil => simp [firstOccur]
  | cons y ys ih =>
    simp only [firstOccur, List.mem_cons, List.mem_filter, ih]
    by_cases hxy : x = y
    · simp [hxy]
    · simp [hxy]

theorem nodup_firstOccur (l : List String) : (firstOccur l).Nodup := by
  induction l with
  | nil => simp [firstOccur]
  | cons y ys ih =>
    rw [firstOccur, List.nodup_cons]
    exact ⟨by simp [List.mem_filter], ih.filter _⟩

theorem mem_dupIds (ids : List String) (x : String) :
    x ∈ dupIds ids ↔ ids.count x > 1 := by
  unfold dupIds
  rw [List.mem_filter, mem_firstOccur]
  constructor
  · rintro ⟨_, h⟩
    simpa using h
  · intro h
    refine ⟨?_, by simpa using h⟩
    exact List.count_pos_iff.mp (lt_trans Nat.zero_lt_one h)

theorem nodup_dupIds (ids : List String) : (dupIds ids).Nodup :=
  (nodup_firstOccur ids).filter _

theorem dupIds_eq_nil_iff (ids : List String) :
    dupIds ids = [] ↔ ∀ i, ids.count i ≤ 1 := by
  rw [List.eq_nil_iff_forall_not_mem]
  constructor
  · intro h i
    have := h i
    rw [mem_dupIds] at this
    omega
  · intro h i hi
    rw [mem_dupIds] at hi
    exact absurd hi (by have := h i; omega)

theorem mem_addNew : ∀ (xs acc : List String) (x : String),
    x ∈ addNew acc xs ↔ x ∈ acc ∨ x ∈ xs := by
  intro xs
  induction xs with
  | nil => intro acc x; simp [addNew]
  | cons y ys ih =>
    intro acc x
    rw [show addNew acc (y :: ys) =
      addNew (if acc.contains y then acc else acc ++ [y]) ys from rfl, ih]
    rw [List.mem_cons]
    by_cases hc : y ∈ acc
    · have hcb : acc.contains y = true := by simpa using hc
      rw [hcb, if_pos rfl]
      constructor
      · rintro (h | h)
        · exact Or.inl h
        · exact Or.inr (Or.inr h)
      · rintro (h | h | h)
        · exact Or.inl h
        · exact Or.inl (by rw [h]; exact hc)
        · exact Or.inr h
    · have hcb : acc.contains y = false := by simpa using hc
      rw [hcb, if_neg (by simp)]
      rw [List.mem_append, List.mem_singleton]
      tauto

theorem nodup_addNew : ∀ (xs acc : List String), acc.Nodup → (addNew acc xs).Nodup := by
  intro xs
  induction xs with
  | nil => intro acc h; exact h
  | cons y ys ih =>
    intro acc h
    rw [show addNew acc (y :: ys) =
      addNew (if acc.contains y then acc else acc ++ [y]) ys from rfl]
    apply ih
    by_cases hc : y ∈ acc
    · have hcb : acc.contains y = true := by simpa using hc
      rw [hcb, if_pos rfl]; exact h
    · have hcb : acc.contains y = false := by simpa using hc
      rw [hcb, if_neg (by simp)]
      rw [(List.perm_append_singleton y acc).nodup_iff, List.nodup_cons]
      exact ⟨hc, h⟩

theorem mem_wantUsers_aux (gs : List Group) : ∀ (acc : List String) (u : String),
    u ∈ gs.foldl (fun acc grp =>
        if grp.users = "" then acc else addNew acc (pySplit ',' grp.users)) acc ↔
      u ∈ acc ∨ ∃ grp ∈ gs, grp.users ≠ "" ∧ u ∈ pySplit ',' grp.users := by
  induction gs with
  | nil => intro acc u; simp
  | cons g gs ih =>
    intro acc u
    rw [List.foldl_cons, ih]
    by_cases hg : g.users = ""
    · rw [if_pos hg]
      constructor
      · rintro (h | h)
        · exact Or.inl h
        · exact Or.inr (by obtain ⟨grp, h1, h2⟩ := h; exact ⟨grp, List.mem_cons_of_mem g h1, h2⟩)
      · rintro (h | ⟨grp, hmem, hne, hu⟩)
        · exact Or.inl h
        · rcases List.mem_cons.mp hmem with rfl | hmem2
          · exact absurd hg hne
          · exact Or.inr ⟨grp, hmem2, hne, hu⟩
    · rw [if_neg hg, mem_addNew]
      constructor
      · rintro ((h | h) | h)
        · exact Or.inl h
        · exact Or.inr ⟨g, List.mem_cons_self g gs, hg, h⟩
        · exact Or.inr (by obtain ⟨grp, h1, h2⟩ := h; exact ⟨grp, List.mem_cons_of_mem g h1, h2⟩)
      · rintro (h | ⟨grp, hmem, hne, hu⟩)
        · exact Or.inl (Or.inl h)
        · rcases List.mem_cons.mp hmem with rfl | hmem2
          · exact Or.inl (Or.inr hu)
          · exact Or.inr ⟨grp, hmem2, hne, hu⟩

theorem mem_wantUsers (groups : List Group) (u : String) :
    u ∈ wantUsers groups ↔
      ∃ grp ∈ groups, grp.users ≠ "" ∧ u ∈ pySplit ',' grp.users := by
  rw [wantUsers, mem_wantUsers_aux]
  simp

theorem nodup_wantUsers_aux (gs : List Group) : ∀ acc : List String, acc.Nodup →
    (gs.foldl (fun acc grp =>
        if grp.users = "" then acc else addNew acc (pySplit ',' grp.users)) acc).Nodup := by
  induction gs with
  | nil => intro acc h; simpa using h
  | cons g gs ih =>
    intro acc h
    rw [List.foldl_cons]
    apply ih
    by_cases hg : g.users = ""
    · rw [if_pos hg]; exact h
    · rw [if_neg hg]; exact nodup_addNew _ acc h

theorem nodup_wantUsers (groups : List Group) : (wantUsers groups).Nodup :=
  nodup_wantUsers_aux groups [] List.nodup_nil

theorem mem_missingUsers (groups : List Group) (users : List User) (u : String) :
    u ∈ missingUsers groups users ↔
      ((∃ grp ∈ groups, grp.users ≠ "" ∧ u ∈ pySplit ',' grp.users) ∧
        u ∉ users.map User.user) := by
  rw [missingUsers, List.mem_filter, mem_wantUsers]
  simp

theorem nodup_missingUsers (groups : List Group) (users : List User) :
    (missingUsers groups users).Nodup :=
  (nodup_wantUsers groups).filter _

theorem missingUsers_eq_nil_iff (groups : List Group) (users : List User) :
    missingUsers groups users = [] ↔
      ∀ grp ∈ groups, grp.users ≠ "" →
        ∀ u ∈ pySplit ',' grp.users, u ∈ users.map User.user := by
  constructor
  · intro h grp hgrp hne u hu
    by_contra hnotin
    have hmem : u ∈ missingUsers groups users :=
      (mem_missingUsers groups users u).mpr ⟨⟨grp, hgrp, hne, hu⟩, hnotin⟩
    rw [h] at hmem
    exact List.not_mem_nil u hmem
  · intro h
    rw [List.eq_nil_iff_forall_not_mem]
    intro u hu
    obtain ⟨⟨grp, hgrp, hne, husplit⟩, hnotin⟩ := (mem_missingUsers groups users u).mp hu
    exact hnotin (h grp hgrp hne u husplit)

/-- C2 (amended): Check is ok exactly when no gid is shared, no uid is shared,
and every username in the comma-split users field of each group whose users
field is non-empty exists as a user (the source skips empty users fields, so
"" is never treated as a referenced username). The diagnostics are the three
rules' lines in order, all evaluated: one line per duplicated gid/uid — each
duplicated id listed exactly once — giving the id and the comma-joined names
of all sharers, and one line per (group, missing username) pair, each missing
username listed exactly once overall. -/
theorem CheckConsistency_spec (groups : List Group) (users : List User) :
    ((CheckConsistency groups users).1 = true ↔
      ((∀ g : String, (groups.map Group.gid).count g ≤ 1) ∧
       (∀ u : String, (users.map User.uid).count u ≤ 1) ∧
       (∀ grp ∈ groups, grp.users ≠ "" →
         ∀ u ∈ pySplit ',' grp.users, u ∈ users.map User.user))) ∧
    (CheckConsistency groups users).2 =
      dupGidDiags groups ++ dupUidDiags users ++ missingDiags groups users ∧
    ((dupGids groups).Nodup ∧
      ∀ g : String, g ∈ dupGids groups ↔ (groups.map Group.gid).count g > 1) ∧
    dupGidDiags groups = (dupGids groups).map (fun g =>
      "error: duplicate gid found: " ++ g ++ ": " ++
        pyJoin ", " ((groups.filter (fun x => x.gid = g)).map Group.group)) ∧
    ((dupUids users).Nodup ∧
      ∀ u : String, u ∈ dupUids users ↔ (users.map User.uid).count u > 1) ∧
    dupUidDiags users = (dupUids users).map (fun u =>
      "error: duplicate uid found: " ++ u ++ ": " ++
        pyJoin ", " ((users.filter (fun x => x.uid = u)).map User.user)) ∧
    ((missingUsers groups users).Nodup ∧
      ∀ u : String, u ∈ missingUsers groups users ↔
        ((∃ grp ∈ groups, grp.users ≠ "" ∧ u ∈ pySplit ',' grp.users) ∧
          u ∉ users.map User.user)) ∧
    missingDiags groups users =
      (if missingUsers groups users = [] then []
       else "error: group lists unknown users" ::
         groups.flatMap (fun grp =>
           ((missingUsers groups users).filter
               (fun u => (pySplit ',' grp.users).contains u)).map (fun u =>
             "error: group \"" ++ grp.group ++ "\" wants missing user \"" ++ u ++ "\""))) := by
  have h1 : (dupGids groups).isEmpty = true ↔
      ∀ g : String, (groups.map Group.gid).count g ≤ 1 := by
    rw [isEmpty_iff_nil]; exact dupIds_eq_nil_iff _
  have h2 : (dupUids users).isEmpty = true ↔
      ∀ u : String, (users.map User.uid).count u ≤ 1 := by
    rw [isEmpty_iff_nil]; exact dupIds_eq_nil_iff _
  have h3 : (missingUsers groups users).isEmpty = true ↔
      ∀ grp ∈ groups, grp.users ≠ "" →
        ∀ u ∈ pySplit ',' grp.users, u ∈ users.map User.user := by
    rw [isEmpty_iff_nil]; exact missingUsers_eq_nil_iff groups users
  refine ⟨?_, rfl, ⟨nodup_dupIds _, fun g => mem_dupIds _ g⟩, rfl,
    ⟨nodup_dupIds _, fun u => mem_dupIds _ u⟩, rfl,
    ⟨nodup_missingUsers groups users, fun u => mem_missingUsers groups users u⟩, rfl⟩
  show ((dupGids groups).isEmpty && (dupUids users).isEmpty &&
      (missingUsers groups users).isEmpty) = true ↔ _
  rw [Bool.and_eq_true, Bool.and_eq_true, h1, h2, h3]
  tauto

/-- Witness for C2: two groups sharing gid 10 put "10" among the duplicated
gids, through the membership characterisation of the theorem. -/
theorem CheckConsistency_spec_witness :
    "10" ∈ dupGids
      [{ group := "a", password := "!", gid := "10", users := "", defunct := "" },
       { group := "b", password := "!", gid := "10", users := "", defunct := "" }] :=
  ((CheckConsistency_spec
      [{ group := "a", password := "!", gid := "10", users := "", defunct := "" },
       { group := "b", password := "!", gid := "10", users := "", defunct := "" }]
      []).2.2.1.2 "10").mpr (by decide)

/-- Counterexample to C2 as stated: a group whose users field is empty. The
comma-split of "" is [""], so the claim's condition "every username appearing
in any group's comma-split users field exists as a user" fails (there is no
user named ""), yet Check returns ok — the source only splits non-empty users
fields. -/
theorem CheckConsistency_spec_cex :
    (CheckConsistency
      [{ group := "g", password := "!", gid := "1", users := "", defunct := "" }] []).1 =
      true ∧
    pySplit ','
      ({ group := "g", password := "!", gid := "1", users := "", defunct := "" } :
        Group).users = [""] ∧
    ¬ (∀ grp ∈ ([{ group := "g", password := "!", gid := "1", users := "", defunct := "" }] :
          List Group),
        ∀ u ∈ pySplit ',' grp.users, u ∈ ([] : List User).map User.user) := by
  refine ⟨rfl, rfl, ?_⟩
  decide

/-! Driver lemmas. -/

/-- Once a file fails to parse, the driver's result is fixed: the name of that
file and its error, whatever files follow. -/
theorem loadAccounts_error : ∀ (pre : List (String × String)) (f : String × String)
    (rest : List (String × String)) (e : ParseError) (gs : List Group) (us : List User),
    (∀ x ∈ pre, exceptOk (parseOne x) = true) → parseOne f = .error e →
    loadAccounts (pre ++ f :: rest) gs us = .error (f.1, e) := by
  intro pre
  induction pre with
  | nil => intro f rest e gs us _ hf; simp [loadAccounts, hf]
  | cons x pre ih =>
    intro f rest e gs us hpre hf
    have hx := hpre x (List.mem_cons_self x pre)
    cases hpx : parseOne x with
    | error e2 => rw [hpx] at hx; simp [exceptOk] at hx
    | ok v =>
      cases v with
      | inl g =>
        rw [List.cons_append,
          show loadAccounts (x :: (pre ++ f :: rest)) gs us =
            loadAccounts (pre ++ f :: rest) (gs ++ [g]) us from by
              simp [loadAccounts, hpx]]
        exact ih f rest e (gs ++ [g]) us (fun y hy => hpre y (List.mem_cons_of_mem x hy)) hf
      | inr u =>
        rw [List.cons_append,
          show loadAccounts (x :: (pre ++ f :: rest)) gs us =
            loadAccounts (pre ++ f :: rest) gs (us ++ [u]) from by
              simp [loadAccounts, hpx]]
        exact ih f rest e gs (us ++ [u]) (fun y hy => hpre y (List.mem_cons_of_mem x hy)) hf

/-- C3 (amended): if some file fails to parse while every earlier file parses,
the driver emits exactly one stderr line naming that file and the failure
reason, prints no table output, ignores every later file, and exits with
EX_DATAERR = 65. If every file parses, every parsed gid (for groups) and uid
(for users) is a decimal integer string — without which the rendering step
dies instead of exiting — and the consistency check, when enabled, reports ok,
the driver exits 0. -/
theorem main_spec :
    (∀ (pre : List (String × String)) (f : String × String) (rest : List (String × String))
        (e : ParseError) (c : Bool),
      (∀ x ∈ pre, exceptOk (parseOne x) = true) → parseOne f = .error e →
      main (pre ++ f :: rest) c =
        some (65, [], ["error: " ++ f.1 ++ ": " ++ pyErrMsg e])) ∧
    (∀ (files : List (String × String)) (c : Bool) (gs : List Group) (us : List User),
      loadAccounts files [] [] = .ok (gs, us) →
      (∀ g ∈ gs, (pyInt? g.gid).isSome = true) →
      (∀ u ∈ us, (pyInt? u.uid).isSome = true) →
      (c = true → (CheckConsistency gs us).1 = true) →
      (main files c).map Prod.fst = some 0) := by
  constructor
  · intro pre f rest e c hpre hf
    unfold main
    rw [loadAccounts_error pre f rest e [] [] hpre hf]
  · intro files c gs us hload hg hu hc
    have hmain : main files c = afterLoad gs us c := by
      unfold main
      rw [hload]
    have hgall : gs.all
        (fun a => (pyInt? (Group.get a ((groupOrder.map Prod.fst).headD ""))).isSome) = true :=
      List.all_eq_true.mpr (fun a ha => hg a ha)
    have huall : us.all
        (fun a => (pyInt? (User.get a ((userOrder.map Prod.fst).headD ""))).isSome) = true :=
      List.all_eq_true.mpr (fun a ha => hu a ha)
    have hgout : ∃ gl, (if gs.isEmpty then some []
        else DisplayAccounts Group.get groupOrder gs) = some gl := by
      by_cases hge : gs.isEmpty = true
      · exact ⟨[], by rw [if_pos hge]⟩
      · obtain ⟨gl, hgl⟩ := Option.isSome_iff_exists.mp
          ((DisplayAccounts_isSome_iff Group.get groupOrder gs).mpr hgall)
        exact ⟨gl, by rw [if_neg hge, hgl]⟩
    have huout : ∃ ul, (if us.isEmpty then some []
        else DisplayAccounts User.get userOrder us) = some ul := by
      by_cases hue : us.isEmpty = true
      · exact ⟨[], by rw [if_pos hue]⟩
      · obtain ⟨ul, hul⟩ := Option.isSome_iff_exists.mp
          ((DisplayAccounts_isSome_iff User.get userOrder us).mpr huall)
        exact ⟨ul, by rw [if_neg hue, hul]⟩
    obtain ⟨gl, hgl⟩ := hgout
    obtain ⟨ul, hul⟩ := huout
    rw [hmain]
    cases c with
    | false =>
      simp only [afterLoad]
      rw [hgl, hul]
      simp
    | true =>
      simp only [afterLoad]
      rw [hgl, hul]
      simp [hc rfl]

/-- Witness for C3: a no-colon file aborts the run with status 65 and one
stderr line; the spec's end-to-end example (one wheel group, one root user,
check enabled) exits 0. -/
theorem main_spec_witness :
    main [("bad", "nocolon")] false =
      some (65, [], ["error: bad: could not unpack line: nocolon"]) ∧
    (main [("wheel", "group:wheel\ngid:10\nusers:root"),
           ("root", "user:root\nuid:0\ngid:10")] true).map Prod.fst = some 0 := by
  constructor
  · exact main_spec.1 [] ("bad", "nocolon") [] (.malformedLine "nocolon") false
      (by simp) (by rfl)
  · exact main_spec.2
      [("wheel", "group:wheel\ngid:10\nusers:root"), ("root", "user:root\nuid:0\ngid:10")]
      true
      [{ group := "wheel", password := "!", gid := "10", users := "root", defunct := "" }]
      [{ user := "root", password := "!", uid := "0", gid := "10", gecos := "",
         home := "/dev/null", shell := "/bin/false", defunct := "" }]
      (by rfl) (by decide) (by decide) (fun _ => by rfl)

/-- Counterexample to C3 as stated: a single file that parses fine (gid "abc"
passes the parser) with the consistency check disabled, so the claim says the
run exits 0; the run instead dies inside DisplayAccounts on int("abc") and
produces no exit status at all. -/
theorem main_spec_cex :
    loadAccounts [("g", "group:g\ngid:abc")] [] [] =
      .ok ([{ group := "g", password := "!", gid := "abc", users := "", defunct := "" }], []) ∧
    main [("g", "group:g\ngid:abc")] false = none := by
  exact ⟨rfl, rfl⟩

end Accts
